import Mathlib

/-!
Shallow embedding of `ace_hunter/splunk.py`: the Splunk query client
(`SplunkQueryObject`), its query-string construction, duration parsing,
timestamp extraction, result materialization, and the
authenticate/submit/poll/download lifecycle.  Python strings are modelled
as `List Char`; Python integers are unbounded, so `Nat`/`Int` are used
directly with no wraparound.
-/

namespace AceHunter

/-! ### Python string primitives -/

/-- The ASCII whitespace characters recognised by Python's `str.lstrip()`
and by the `\s` class of the anchored regexes in `splunk.py` (the unicode
whitespace characters are not exercised by any caller and are elided). -/
def isPySpace (c : Char) : Bool :=
  c == ' ' || c == '\t' || c == '\n' || c == '\r' || c == '\x0b' || c == '\x0c'

/-- `str.lstrip()` with no argument: drop leading whitespace. -/
def lstrip (s : List Char) : List Char := s.dropWhile isPySpace

/-- `str.lower()` (ASCII; the query strings involved are ASCII). -/
def lowered (s : List Char) : List Char := s.map Char.toLower

def searchTok : List Char := "search".data

/-- `query.lstrip().lower().startswith("search")`, the guard used by
`SplunkQueryObject.query_with_time`, `query_with_index_time` and
`execute_query`. -/
def startsSearchCI (q : List Char) : Bool :=
  searchTok.isPrefixOf (lowered (lstrip q))

/-- The prefix-enforcement step shared by `query_with_time`,
`query_with_index_time` and `execute_query`: prepend `"search "` when the
query does not already start (case-insensitively, after stripping leading
whitespace) with the literal string `search`. -/
def ensureSearchStart (q : List Char) : List Char :=
  if startsSearchCI q then q else "search ".data ++ q

/-- Model of `re.sub(r"^\s*search", repl, query, 1, re.I)`: the anchored
pattern matches the maximal run of leading whitespace followed by the
literal `search` (case-insensitively, and `search` contains no whitespace
so no backtracking into `\s*` is possible); on a match the matched span is
replaced by `repl`, otherwise the string is returned unchanged. -/
def reSubLeadingSearch (repl q : List Char) : List Char :=
  let rest := q.dropWhile isPySpace
  if searchTok.isPrefixOf (lowered rest) then repl ++ rest.drop 6 else q

/-! ### Datetimes and `strftime` formatting -/

/-- The wall-clock fields of a `datetime.datetime`, as far as
`strftime("%m/%d/%Y:%H:%M:%S")` consumes them. -/
structure PyDatetime where
  year : Nat
  month : Nat
  day : Nat
  hour : Nat
  minute : Nat
  second : Nat
deriving DecidableEq

/-- Zero-pad the decimal rendering of `n` to width `w`. -/
def padNum (w n : Nat) : List Char :=
  let s := Nat.toDigits 10 n
  List.replicate (w - s.length) '0' ++ s

/-- `time.strftime("%m/%d/%Y:%H:%M:%S")`, the remote service's time
format used for both wall-clock and index-time bounds. -/
def fmtSplunkTime (t : PyDatetime) : List Char :=
  padNum 2 t.month ++ "/".data ++ padNum 2 t.day ++ "/".data ++ padNum 4 t.year
    ++ ":".data ++ padNum 2 t.hour ++ ":".data ++ padNum 2 t.minute
    ++ ":".data ++ padNum 2 t.second

/-! ### Query construction (`query_with_time`, `query_with_index_time`) -/

/-- The query-construction part of `SplunkQueryObject.query_with_time`:
the prefix enforcement followed by the two guarded injections (the
`latest=` clause for `time_end` first, then the `earliest=` clause for
`time_start`), each spliced in by `re.sub(r"^\s*search", ...)`.  A `none`
bound models Python `None`, whose `is not None` guard skips that
injection.  The trailing `self.query(query)` call is modelled separately
by `query` below. -/
def query_with_time_build (q : List Char) (time_start time_end : Option PyDatetime) :
    List Char :=
  let q1 := ensureSearchStart q
  let q2 := match time_end with
    | some t => reSubLeadingSearch ("search latest=".data ++ fmtSplunkTime t) q1
    | none => q1
  match time_start with
  | some t => reSubLeadingSearch ("search earliest=".data ++ fmtSplunkTime t) q2
  | none => q2

/-- Same construction for `SplunkQueryObject.query_with_index_time`,
which injects `_index_latest=` / `_index_earliest=` instead. -/
def query_with_index_time_build (q : List Char) (time_start time_end : Option PyDatetime) :
    List Char :=
  let q1 := ensureSearchStart q
  let q2 := match time_end with
    | some t => reSubLeadingSearch ("search _index_latest=".data ++ fmtSplunkTime t) q1
    | none => q1
  match time_start with
  | some t => reSubLeadingSearch ("search _index_earliest=".data ++ fmtSplunkTime t) q2
  | none => q2

/-- `query_with_time` including its leading
`assert isinstance(time_start, datetime.datetime)` and
`assert isinstance(time_end, datetime.datetime)` statements: under
default (assertion-enabled) execution a `None` bound fails the
`isinstance` check and raises `AssertionError`, modelled as
`.error ()`. -/
def query_with_time_asserted (q : List Char) (time_start time_end : Option PyDatetime) :
    Except Unit (List Char) :=
  match time_start, time_end with
  | some _, some _ => .ok (query_with_time_build q time_start time_end)
  | _, _ => .error ()

/-- `query_with_index_time` including its leading `isinstance` asserts. -/
def query_with_index_time_asserted (q : List Char) (time_start time_end : Option PyDatetime) :
    Except Unit (List Char) :=
  match time_start, time_end with
  | some _, some _ => .ok (query_with_index_time_build q time_start time_end)
  | _, _ => .error ()

/-! ### Substring occurrence (for stating the C1 ordering property) -/

/-- `pat` occurs in `s` starting at position `i`. -/
def subAt (pat s : List Char) (i : Nat) : Bool := pat.isPrefixOf (s.drop i)

/-- Some occurrence of `a` in `s` starts strictly before some occurrence
of `b`. -/
def occursBeforeB (a b s : List Char) : Bool :=
  (List.range s.length).any fun i =>
    subAt a s i && ((List.range s.length).any fun j => decide (i < j) && subAt b s j)

/-- What follows the single leading `search` token after an injection:
either the remainder of the original query past its own `search` keyword
(when the query already started with it), or a space followed by the
whole original query (when the `"search "` prefix was added). -/
def tailAfterSearch (q : List Char) : List Char :=
  if startsSearchCI q then (lstrip q).drop 6 else ' ' :: q

/-! ### Helper lemmas about the rewriting -/

theorem isPrefixOf_self_app (p r : List Char) : p.isPrefixOf (p ++ r) = true := by
  simp only [List.isPrefixOf_iff_prefix]
  exact List.prefix_append p r

theorem lowered_append (a b : List Char) : lowered (a ++ b) = lowered a ++ lowered b := by
  simp [lowered]

theorem reSub_searchTok (repl x : List Char) :
    reSubLeadingSearch repl (searchTok ++ x) = repl ++ x := by
  have hdrop : (searchTok ++ x).dropWhile isPySpace = searchTok ++ x := rfl
  have hlow : lowered (searchTok ++ x) = searchTok ++ lowered x := by
    rw [lowered_append]; rfl
  have hcond : searchTok.isPrefixOf (lowered (searchTok ++ x)) = true := by
    rw [hlow]; exact isPrefixOf_self_app _ _
  have hdrop6 : (searchTok ++ x).drop 6 = x := rfl
  simp [reSubLeadingSearch, hdrop, hcond, hdrop6]

theorem reSub_ensure (repl q : List Char) :
    reSubLeadingSearch repl (ensureSearchStart q) = repl ++ tailAfterSearch q := by
  by_cases h : startsSearchCI q = true
  · have he : ensureSearchStart q = q := by simp [ensureSearchStart, h]
    have ht : tailAfterSearch q = (lstrip q).drop 6 := by simp [tailAfterSearch, h]
    have hcond : searchTok.isPrefixOf (lowered (q.dropWhile isPySpace)) = true := h
    rw [he, ht]
    simp only [reSubLeadingSearch, hcond, if_true]
    rfl
  · have he : ensureSearchStart q = "search ".data ++ q := by simp [ensureSearchStart, h]
    have ht : tailAfterSearch q = ' ' :: q := by simp [tailAfterSearch, h]
    have hsp : "search ".data ++ q = searchTok ++ (' ' :: q) := rfl
    rw [he, ht, hsp, reSub_searchTok]

theorem startsSearchCI_prepend (q : List Char) :
    startsSearchCI ("search ".data ++ q) = true := by
  have h1 : lstrip ("search ".data ++ q) = searchTok ++ (' ' :: q) := rfl
  have h2 : lowered (searchTok ++ (' ' :: q)) = searchTok ++ lowered (' ' :: q) := by
    rw [lowered_append]; rfl
  unfold startsSearchCI
  rw [h1, h2]
  exact isPrefixOf_self_app _ _

theorem subAt_append_here (p B r : List Char) : subAt p (B ++ (p ++ r)) B.length = true := by
  unfold subAt
  rw [List.drop_left]
  exact isPrefixOf_self_app p r

/-! ### C5 -/

/-- C5: for every query that (after discarding leading whitespace) does
not begin case-insensitively with the literal string `search`, the
prefix-enforcement step of `query_with_time` / `execute_query` inserts
exactly one `"search "` prefix before it; a query that already begins
with it is returned unchanged, and re-applying the step never adds a
second prefix. -/
theorem c5_search_keyword (q : List Char) :
    (startsSearchCI q = false → ensureSearchStart q = "search ".data ++ q)
    ∧ (startsSearchCI q = true → ensureSearchStart q = q)
    ∧ ensureSearchStart (ensureSearchStart q) = ensureSearchStart q := by
  refine ⟨fun h => ?_, fun h => ?_, ?_⟩
  · simp [ensureSearchStart, h]
  · simp [ensureSearchStart, h]
  · by_cases h : startsSearchCI q = true
    · simp [ensureSearchStart, h]
    · have h1 : ensureSearchStart q = "search ".data ++ q := by simp [ensureSearchStart, h]
      rw [h1]
      simp only [ensureSearchStart]
      rw [if_pos (startsSearchCI_prepend q)]

/-- C5 witness: concrete instances of both hypotheses of
`c5_search_keyword`. -/
theorem c5_search_keyword_witness :
    startsSearchCI "index=main".data = false
    ∧ ensureSearchStart "index=main".data = "search ".data ++ "index=main".data
    ∧ startsSearchCI "search index=main".data = true
    ∧ ensureSearchStart "search index=main".data = "search index=main".data :=
  ⟨by decide, (c5_search_keyword "index=main".data).1 (by decide),
   by decide, (c5_search_keyword "search index=main".data).2.1 (by decide)⟩

/-! ### C1 -/

/-- C1 (amended): for every base query and non-null start/end bounds, the
wall-clock-bounded query contains `earliest=<start>` and `latest=<end>`
in the `MM/DD/YYYY:HH:MM:SS` format, but because each clause is spliced
in immediately after the leading `search` token and `latest=` is injected
first, the `earliest=` clause ends up *before* the `latest=` clause in
the resulting string. -/
theorem c1_time_bounds_order (q : List Char) (a b : PyDatetime) :
    query_with_time_build q (some a) (some b)
      = "search earliest=".data ++ fmtSplunkTime a ++ " latest=".data ++ fmtSplunkTime b
          ++ tailAfterSearch q
    ∧ ∃ i j, i < j
        ∧ subAt ("earliest=".data ++ fmtSplunkTime a)
            (query_with_time_build q (some a) (some b)) i = true
        ∧ subAt ("latest=".data ++ fmtSplunkTime b)
            (query_with_time_build q (some a) (some b)) j = true := by
  have hb2 : query_with_time_build q (some a) (some b)
      = ("search earliest=".data ++ fmtSplunkTime a)
          ++ (" latest=".data ++ (fmtSplunkTime b ++ tailAfterSearch q)) := by
    show reSubLeadingSearch ("search earliest=".data ++ fmtSplunkTime a)
        (reSubLeadingSearch ("search latest=".data ++ fmtSplunkTime b)
          (ensureSearchStart q)) = _
    rw [reSub_ensure]
    have hq2 : ("search latest=".data ++ fmtSplunkTime b) ++ tailAfterSearch q
        = searchTok ++ (" latest=".data ++ (fmtSplunkTime b ++ tailAfterSearch q)) := by
      have hsp : "search latest=".data = searchTok ++ " latest=".data := rfl
      rw [hsp]; simp [List.append_assoc]
    rw [hq2, reSub_searchTok]
  constructor
  · rw [hb2]; simp [List.append_assoc]
  · refine ⟨("search ".data).length,
      (("search earliest=".data ++ fmtSplunkTime a) ++ " ".data).length, ?_, ?_, ?_⟩
    · have h1 : ("search ".data).length = 7 := rfl
      have h2 : ("search earliest=".data).length = 16 := rfl
      have h3 : (" ".data).length = 1 := rfl
      simp only [List.length_append, h1, h2, h3]
      omega
    · have hA : query_with_time_build q (some a) (some b)
          = "search ".data ++ (("earliest=".data ++ fmtSplunkTime a)
              ++ (" latest=".data ++ (fmtSplunkTime b ++ tailAfterSearch q))) := by
        rw [hb2]
        have hsp : "search earliest=".data = "search ".data ++ "earliest=".data := rfl
        rw [hsp]; simp [List.append_assoc]
      rw [hA]
      exact subAt_append_here _ _ _
    · have hB : query_with_time_build q (some a) (some b)
          = (("search earliest=".data ++ fmtSplunkTime a) ++ " ".data)
              ++ (("latest=".data ++ fmtSplunkTime b) ++ tailAfterSearch q) := by
        rw [hb2]
        have hsp : " latest=".data = " ".data ++ "latest=".data := rfl
        rw [hsp]; simp [List.append_assoc]
      rw [hB]
      exact subAt_append_here _ _ _

/-- C1 counterexample: at the spec's own concrete input (start
2024-01-01T00:00:00, end 2024-01-01T00:00:10, base query `index=main`)
the built query is
`search earliest=01/01/2024:00:00:00 latest=01/01/2024:00:00:10 index=main`:
no occurrence of `latest=` precedes an occurrence of `earliest=`, so the
claimed "latest before earliest" ordering is false (the order is the
reverse). -/
theorem c1_order_counterexample :
    query_with_time_build "index=main".data
        (some ⟨2024, 1, 1, 0, 0, 0⟩) (some ⟨2024, 1, 1, 0, 0, 10⟩)
      = "search earliest=01/01/2024:00:00:00 latest=01/01/2024:00:00:10 index=main".data
    ∧ occursBeforeB "latest=".data "earliest=".data
        (query_with_time_build "index=main".data
          (some ⟨2024, 1, 1, 0, 0, 0⟩) (some ⟨2024, 1, 1, 0, 0, 10⟩)) = false
    ∧ occursBeforeB "earliest=".data "latest=".data
        (query_with_time_build "index=main".data
          (some ⟨2024, 1, 1, 0, 0, 0⟩) (some ⟨2024, 1, 1, 0, 0, 10⟩)) = true :=
  ⟨by decide, by decide, by decide⟩

/-! ### C7 -/

/-- C7 (amended): with the leading `isinstance` assertions disabled
(they reject a `None` bound under default execution, see
`c7_assert_counterexample`), a null start or end bound simply omits that
clause's injection: the body's `is not None` guards skip it and the other
clause is spliced in exactly as it would otherwise be. -/
theorem c7_null_bounds (q : List Char) (a b : PyDatetime) :
    query_with_time_build q (some a) none
      = "search earliest=".data ++ fmtSplunkTime a ++ tailAfterSearch q
    ∧ query_with_time_build q none (some b)
      = "search latest=".data ++ fmtSplunkTime b ++ tailAfterSearch q
    ∧ query_with_time_build q none none = ensureSearchStart q
    ∧ query_with_index_time_build q (some a) none
      = "search _index_earliest=".data ++ fmtSplunkTime a ++ tailAfterSearch q
    ∧ query_with_index_time_build q none (some b)
      = "search _index_latest=".data ++ fmtSplunkTime b ++ tailAfterSearch q
    ∧ query_with_index_time_build q none none = ensureSearchStart q := by
  refine ⟨?_, ?_, rfl, ?_, ?_, rfl⟩
  · show reSubLeadingSearch ("search earliest=".data ++ fmtSplunkTime a)
        (ensureSearchStart q) = _
    rw [reSub_ensure]
  · show reSubLeadingSearch ("search latest=".data ++ fmtSplunkTime b)
        (ensureSearchStart q) = _
    rw [reSub_ensure]
  · show reSubLeadingSearch ("search _index_earliest=".data ++ fmtSplunkTime a)
        (ensureSearchStart q) = _
    rw [reSub_ensure]
  · show reSubLeadingSearch ("search _index_latest=".data ++ fmtSplunkTime b)
        (ensureSearchStart q) = _
    rw [reSub_ensure]

/-- C7 counterexample: calling `query_with_time` (or
`query_with_index_time`) with a null bound is *not* permitted under
default execution — the leading
`assert isinstance(..., datetime.datetime)` raises `AssertionError`. -/
theorem c7_assert_counterexample :
    query_with_time_asserted "index=main".data none (some ⟨2024, 1, 1, 0, 0, 10⟩) = .error ()
    ∧ query_with_time_asserted "index=main".data (some ⟨2024, 1, 1, 0, 0, 0⟩) none = .error ()
    ∧ query_with_index_time_asserted "index=main".data none (some ⟨2024, 1, 1, 0, 0, 10⟩)
        = .error () :=
  ⟨rfl, rfl, rfl⟩

/-! ### `create_timedelta` (C4) -/

/-- Python `str.split(sep)` for a single-character separator
(`"".split(":") == [""]`, `":".split(":") == ["", ""]`). -/
def pySplit (c : Char) : List Char → List (List Char)
  | [] => [[]]
  | x :: xs =>
    let r := pySplit c xs
    if x = c then [] :: r
    else
      match r with
      | [] => [[x]]
      | y :: ys => (x :: y) :: ys

/-- `sep.join`, used to state C4 over explicit component lists. -/
def pyJoin (c : Char) : List (List Char) → List Char
  | [] => []
  | [p] => p
  | p :: ps => p ++ c :: pyJoin c ps

def digitVal (c : Char) : Option Nat :=
  if c.isDigit then some (c.toNat - '0'.toNat) else none

def parseDigitsGo : List Char → Nat → Option Nat
  | [], acc => some acc
  | c :: cs, acc =>
    match digitVal c with
    | none => none
    | some d => parseDigitsGo cs (acc * 10 + d)

/-- Model of Python `int(s)` restricted to the shapes a duration spec can
contain: an optional sign followed by at least one ASCII digit; anything
else raises `ValueError` (`none`). -/
def parsePyInt : List Char → Option Int
  | [] => none
  | '-' :: cs =>
    match cs with
    | [] => none
    | _ :: _ => (parseDigitsGo cs 0).map fun n => -(n : Int)
  | '+' :: cs =>
    match cs with
    | [] => none
    | _ :: _ => (parseDigitsGo cs 0).map fun n => (n : Int)
  | s => (parseDigitsGo s 0).map fun n => (n : Int)

/-- A `duration[-i]` component that may be absent: absent components stay
at the corresponding zero default of `create_timedelta`. -/
def optComp : Option (List Char) → Option Int
  | none => some 0
  | some p => parsePyInt p

/-- `create_timedelta(timespec)`: split on `:` and read the components
right-to-left as seconds, minutes, hours, days (`duration[-1]` ..
`duration[-4]`; `split` always yields at least one piece).  The result is
the total seconds of the constructed `datetime.timedelta`, which for
integer arguments is exactly
`days*86400 + hours*3600 + minutes*60 + seconds`; `none` models the
`ValueError` raised by `int()` on a malformed component. -/
def create_timedelta (timespec : List Char) : Option Int :=
  match (pySplit ':' timespec).reverse with
  | [] => none
  | p0 :: rest =>
    match parsePyInt p0, optComp rest[0]?, optComp rest[1]?, optComp rest[2]? with
    | some s, some m, some h, some d => some (d * 86400 + h * 3600 + m * 60 + s)
    | _, _, _, _ => none

/-- The spec's formula for C4: components read right-to-left as seconds,
minutes, hours, days; total seconds
`days*86400 + hours*3600 + minutes*60 + seconds` with missing leading
components zero. -/
def rtlSeconds (vals : List Int) : Int :=
  match vals.reverse with
  | [] => 0
  | [s] => s
  | [s, m] => m * 60 + s
  | [s, m, h] => h * 3600 + m * 60 + s
  | s :: m :: h :: d :: _ => d * 86400 + h * 3600 + m * 60 + s

theorem pySplit_no_sep (c : Char) (p : List Char) (h : c ∉ p) : pySplit c p = [p] := by
  induction p with
  | nil => rfl
  | cons x xs ih =>
    have hx : ¬ x = c := fun he => h (he ▸ List.mem_cons_self x xs)
    have hxs : c ∉ xs := fun hm => h (List.mem_cons_of_mem _ hm)
    simp [pySplit, hx, ih hxs]

theorem pySplit_append (c : Char) (p rest : List Char) (h : c ∉ p) :
    pySplit c (p ++ c :: rest) = p :: pySplit c rest := by
  induction p with
  | nil => simp [pySplit]
  | cons x xs ih =>
    have hx : ¬ x = c := fun he => h (he ▸ List.mem_cons_self x xs)
    have hxs : c ∉ xs := fun hm => h (List.mem_cons_of_mem _ hm)
    simp [pySplit, hx, ih hxs]

/-- C4: for every duration spec of one to four colon-separated integer
components, `create_timedelta` yields a duration whose total seconds are
`days*86400 + hours*3600 + minutes*60 + seconds`, the components being
read right-to-left as seconds, minutes, hours, days with missing leading
components zero. -/
theorem c4_create_timedelta (parts : List (List Char)) (vals : List Int)
    (h : List.Forall₂ (fun p v => parsePyInt p = some v ∧ ':' ∉ p) parts vals)
    (h1 : 1 ≤ parts.length) (h4 : parts.length ≤ 4) :
    create_timedelta (pyJoin ':' parts) = some (rtlSeconds vals) := by
  rcases h with - | ⟨⟨hp1, hc1⟩, h⟩
  · simp at h1
  rcases h with - | ⟨⟨hp2, hc2⟩, h⟩
  · rename_i p1 v1
    have hs : (pySplit ':' (pyJoin ':' [p1])).reverse = [p1] := by
      show (pySplit ':' p1).reverse = [p1]
      rw [pySplit_no_sep ':' p1 hc1]
      rfl
    simp only [create_timedelta, hs]
    simp [hp1, optComp, rtlSeconds]
  rcases h with - | ⟨⟨hp3, hc3⟩, h⟩
  · rename_i p1 v1 p2 v2
    have hs : (pySplit ':' (pyJoin ':' [p1, p2])).reverse = [p2, p1] := by
      show (pySplit ':' (p1 ++ ':' :: p2)).reverse = [p2, p1]
      rw [pySplit_append ':' p1 p2 hc1, pySplit_no_sep ':' p2 hc2]
      rfl
    simp only [create_timedelta, hs]
    simp [hp1, hp2, optComp, rtlSeconds]
  rcases h with - | ⟨⟨hp4, hc4⟩, h⟩
  · rename_i p1 v1 p2 v2 p3 v3
    have hs : (pySplit ':' (pyJoin ':' [p1, p2, p3])).reverse = [p3, p2, p1] := by
      show (pySplit ':' (p1 ++ ':' :: (p2 ++ ':' :: p3))).reverse = [p3, p2, p1]
      rw [pySplit_append ':' p1 _ hc1, pySplit_append ':' p2 p3 hc2,
        pySplit_no_sep ':' p3 hc3]
      rfl
    simp only [create_timedelta, hs]
    simp [hp1, hp2, hp3, optComp, rtlSeconds]
  rcases h with - | ⟨⟨hp5, hc5⟩, h⟩
  · rename_i p1 v1 p2 v2 p3 v3 p4 v4
    have hs : (pySplit ':' (pyJoin ':' [p1, p2, p3, p4])).reverse = [p4, p3, p2, p1] := by
      show (pySplit ':' (p1 ++ ':' :: (p2 ++ ':' :: (p3 ++ ':' :: p4)))).reverse
        = [p4, p3, p2, p1]
      rw [pySplit_append ':' p1 _ hc1, pySplit_append ':' p2 _ hc2,
        pySplit_append ':' p3 p4 hc3, pySplit_no_sep ':' p4 hc4]
      rfl
    simp only [create_timedelta, hs]
    simp [hp1, hp2, hp3, hp4, optComp, rtlSeconds]
  · simp at h4

/-- C4 witness: the spec's `"1:02:10:05"` example evaluates to
1 day, 2 hours, 10 minutes, 5 seconds = 94205 seconds. -/
theorem c4_create_timedelta_witness :
    create_timedelta (pyJoin ':' ["1".data, "02".data, "10".data, "05".data])
      = some (rtlSeconds [1, 2, 10, 5])
    ∧ create_timedelta "1:02:10:05".data = some 94205 := by
  constructor
  · exact c4_create_timedelta ["1".data, "02".data, "10".data, "05".data] [1, 2, 10, 5]
      (.cons (by decide) (.cons (by decide) (.cons (by decide) (.cons (by decide) .nil))))
      (by decide) (by decide)
  · decide

/-! ### Result materialization (`json()`, C8) -/

/-- The remote service's `json_rows` payload: ordered field names plus
ordered rows of values aligned positionally to the fields (values are
modelled as strings, the only value shape the claims exercise). -/
structure Payload where
  fields : List (List Char)
  rows : List (List (List Char))
deriving DecidableEq

/-- Python `obj[key] = value` on a `dict`: replace in place if the key is
present (keeping its position), otherwise append at the end. -/
def dictInsert (k v : List Char) :
    List (List Char × List Char) → List (List Char × List Char)
  | [] => [(k, v)]
  | (k0, v0) :: rest => if k0 = k then (k, v) :: rest else (k0, v0) :: dictInsert k v rest

/-- The inner loop of `SplunkQueryObject.json()`:
`for index in range(0, len(fields)): obj[fields[index]] = row[index]`.
`none` models the `IndexError` raised when a row is shorter than the
field list. -/
def buildRecordGo :
    List (List Char) → List (List Char) → List (List Char × List Char) →
      Option (List (List Char × List Char))
  | [], _, acc => some acc
  | _ :: _, [], _ => none
  | f :: fs, v :: vs, acc => buildRecordGo fs vs (dictInsert f v acc)

/-- The outer loop of `json()`: one record per row, in row order. -/
def jsonRows (fields : List (List Char)) :
    List (List (List Char)) → Option (List (List (List Char × List Char)))
  | [] => some []
  | r :: rs =>
    match buildRecordGo fields r [], jsonRows fields rs with
    | some rec0, some recs => some (rec0 :: recs)
    | _, _ => none

/-- `SplunkQueryObject.json()`: `.ok none` models the early `return None`
when no payload is stored, `.ok (some records)` the normal return, and
`.error ()` an `IndexError` escaping from a short row. -/
def jsonFn (search_results : Option Payload) :
    Except Unit (Option (List (List (List Char × List Char)))) :=
  match search_results with
  | none => .ok none
  | some p =>
    match jsonRows p.fields p.rows with
    | some recs => .ok (some recs)
    | none => .error ()

theorem dictInsert_fresh (k v : List Char) (acc : List (List Char × List Char))
    (h : ∀ x ∈ acc, x.1 ≠ k) : dictInsert k v acc = acc ++ [(k, v)] := by
  induction acc with
  | nil => rfl
  | cons x rest ih =>
    obtain ⟨k0, v0⟩ := x
    have hk : ¬ k0 = k := h (k0, v0) (List.mem_cons_self _ _)
    simp [dictInsert, hk, ih (fun y hy => h y (List.mem_cons_of_mem _ hy))]

theorem buildRecordGo_eq_zip (fs : List (List Char)) :
    ∀ (vs : List (List Char)) (acc : List (List Char × List Char)),
      fs.Nodup → (∀ x ∈ acc, x.1 ∉ fs) → fs.length ≤ vs.length →
      buildRecordGo fs vs acc = some (acc ++ fs.zip vs) := by
  induction fs with
  | nil => intro vs acc _ _ _; simp [buildRecordGo]
  | cons f fs ih =>
    intro vs acc hnd hacc hlen
    match vs with
    | [] => simp at hlen
    | v :: vs =>
      have hfresh : ∀ x ∈ acc, x.1 ≠ f := by
        intro x hx
        have hm := hacc x hx
        simp only [List.mem_cons, not_or] at hm
        exact hm.1
      have hnd' : fs.Nodup := (List.nodup_cons.mp hnd).2
      have hf : f ∉ fs := (List.nodup_cons.mp hnd).1
      have hacc' : ∀ x ∈ acc ++ [(f, v)], x.1 ∉ fs := by
        intro x hx
        rcases List.mem_append.mp hx with hx | hx
        · have hm := hacc x hx
          simp only [List.mem_cons, not_or] at hm
          exact hm.2
        · simp only [List.mem_singleton] at hx
          subst hx
          exact hf
      have hlen' : fs.length ≤ vs.length := by
        simp only [List.length_cons] at hlen
        omega
      show buildRecordGo fs vs (dictInsert f v acc) = _
      rw [dictInsert_fresh f v acc hfresh, ih vs (acc ++ [(f, v)]) hnd' hacc' hlen']
      simp [List.append_assoc]

theorem jsonRows_eq (F : List (List Char)) (hnd : F.Nodup) :
    ∀ R : List (List (List Char)), (∀ r ∈ R, F.length ≤ r.length) →
      jsonRows F R = some (R.map (fun r => F.zip r)) := by
  intro R
  induction R with
  | nil => intro _; rfl
  | cons r rs ih =>
    intro hlen
    have h1 : buildRecordGo F r [] = some (F.zip r) := by
      have h := buildRecordGo_eq_zip F r [] hnd (by simp) (hlen r (List.mem_cons_self _ _))
      simpa using h
    have h2 := ih (fun x hx => hlen x (List.mem_cons_of_mem _ hx))
    simp [jsonRows, h1, h2]

/-- C8: for a stored payload whose rows all have the same length as the
field list (and distinct field names, as the service guarantees),
`json()` returns one record per row in row order, each record pairing
`fields[i]` with `row[i]` for every index `i`; with no stored payload it
returns the absent indicator `None`. -/
theorem c8_json_materialization (F : List (List Char)) (R : List (List (List Char)))
    (hnd : F.Nodup) (hlen : ∀ r ∈ R, r.length = F.length) :
    jsonFn (some ⟨F, R⟩) = .ok (some (R.map (fun r => F.zip r)))
    ∧ jsonFn none
        = (.ok none : Except Unit (Option (List (List (List Char × List Char))))) := by
  refine ⟨?_, rfl⟩
  have hrows := jsonRows_eq F hnd R (fun r hr => (hlen r hr).symm.le)
  simp [jsonFn, hrows]

/-- C8 witness: the spec's fields `["a","b"]`, rows
`[["1","x"],["2","y"]]` example. -/
theorem c8_json_materialization_witness :
    (["a".data, "b".data] : List (List Char)).Nodup
    ∧ jsonFn (some ⟨["a".data, "b".data], [["1".data, "x".data], ["2".data, "y".data]]⟩)
        = .ok (some [[("a".data, "1".data), ("b".data, "x".data)],
                     [("a".data, "2".data), ("b".data, "y".data)]]) := by
  refine ⟨by decide, ?_⟩
  have hmap : ([["1".data, "x".data], ["2".data, "y".data]].map
      fun r => (["a".data, "b".data] : List (List Char)).zip r)
      = [[("a".data, "1".data), ("b".data, "x".data)],
         [("a".data, "2".data), ("b".data, "y".data)]] := by decide
  have h := (c8_json_materialization ["a".data, "b".data]
    [["1".data, "x".data], ["2".data, "y".data]] (by decide) (by decide)).1
  rw [hmap] at h
  exact h

/-! ### Timestamp extraction (`extract_event_timestamp`, C9) -/

/-- Days since 1970-01-01 of a proleptic-Gregorian civil date
(Hinnant's `days_from_civil`), used to give `datetime` values a
canonical instant. -/
def daysFromCivil (y : Int) (m d : Nat) : Int :=
  let y2 : Int := if m ≤ 2 then y - 1 else y
  let era : Int := Int.fdiv y2 400
  let yoe : Int := y2 - era * 400
  let mp : Nat := (m + 9) % 12
  let doy : Nat := (153 * mp + 2) / 5 + d - 1
  let doe : Int := yoe * 365 + Int.fdiv yoe 4 - Int.fdiv yoe 100 + (doy : Int)
  era * 146097 + doe - 719468

/-- Seconds since the epoch of a civil wall-clock datetime (read as UTC). -/
def civilToSeconds (y m d h mi s : Nat) : Int :=
  86400 * daysFromCivil (y : Int) m d + 3600 * (h : Int) + 60 * (mi : Int) + (s : Int)

/-- A `datetime.datetime` as `extract_event_timestamp` handles it: either
offset-naive (bare wall-clock fields) or offset-aware, the latter held as
its UTC instant in seconds plus the display offset in minutes (so
`astimezone` keeps the instant and swaps the offset, and
`replace(tzinfo=...)` keeps the wall clock and attaches an offset).
Sub-second precision is not exercised by the claims and is dropped. -/
inductive PyTime where
  | naive (y m d h mi s : Nat)
  | aware (instant : Int) (offMin : Int)
deriving DecidableEq

def twoDigits (a b : Char) : Option Nat :=
  match digitVal a, digitVal b with
  | some x, some y => some (x * 10 + y)
  | _, _ => none

def fourDigits (a b c d : Char) : Option Nat :=
  match digitVal a, digitVal b, digitVal c, digitVal d with
  | some w, some x, some y, some z => some (((w * 10 + x) * 10 + y) * 10 + z)
  | _, _, _, _ => none

def signVal (c : Char) : Option Int :=
  if c = '+' then some 1 else if c = '-' then some (-1) else none

/-- Modelled from the spec: `dateutil.parser.parse` (an external
library), restricted to the ISO-8601 shape
`YYYY-MM-DDTHH:MM:SS.mmm±HH:MM` exercised by the spec's examples.
`dateutil` returns an offset-aware `datetime` for such strings and raises
`ParserError` (here `none`) for strings it cannot interpret at all, such
as `"garbage"`; it never returns a non-`datetime` value. -/
def parseDateutil (t : List Char) : Option PyTime :=
  match t with
  | [y1, y2, y3, y4, c1, m1, m2, c2, d1, d2, ct, h1, h2, c3, n1, n2, c4, s1, s2, cd,
      f1, f2, f3, sg, o1, o2, c5, p1, p2] =>
    match fourDigits y1 y2 y3 y4, twoDigits m1 m2, twoDigits d1 d2, twoDigits h1 h2,
        twoDigits n1 n2, twoDigits s1 s2, digitVal f1, digitVal f2, digitVal f3,
        signVal sg, twoDigits o1 o2, twoDigits p1 p2 with
    | some y, some mo, some dy, some hr, some mi, some se, some _, some _, some _,
        some sn, some oh, some om =>
      if c1 = '-' ∧ c2 = '-' ∧ ct = 'T' ∧ c3 = ':' ∧ c4 = ':' ∧ cd = '.' ∧ c5 = ':' then
        some (.aware
          (civilToSeconds y mo dy hr mi se - sn * ((oh : Int) * 3600 + (om : Int) * 60))
          (sn * ((oh : Int) * 60 + (om : Int))))
      else none
    | _, _, _, _, _, _, _, _, _, _, _, _ => none
  | _ => none

/-- Modelled from the spec: the `zoneinfo` timezone database (external to
the repository).  Only the fixed-offset zone `"UTC"` is exercised by the
claims; any other name raises `ZoneInfoNotFoundError`, which the source
catches and replaces with the process-wide default timezone. -/
def lookupZone (name : List Char) : Option Int :=
  if name = "UTC".data then some 0 else none

/-- `extract_event_timestamp(obj, event, timezone)` from `splunk.py`,
with the event reduced to its optional `_time` field.  The process-wide
`LOCAL_TIMEZONE` constant and `local_time()` helper live in modules
outside `src/` and are modelled from the spec as the fixed default offset
`localOff` and the current local time `nowLocal`.  A missing `_time`
returns `local_time()` (after a logged warning, elided here).  The
timezone argument is resolved through `lookupZone`, falling back to the
default on an unknown name or a non-string argument.
`dateutil.parser.parse` is modelled by `parseDateutil`; because it
returns a `datetime` or raises, the legacy-regex fallback branch of the
source (guarded by `isinstance(event_time, datetime.datetime)`) is
unreachable, and an unparseable `_time` propagates the parser's
exception (`.error ()`) — the `parse` call is not inside any `try`. -/
def extract_event_timestamp (localOff : Int) (nowLocal : PyTime)
    (eventTime : Option (List Char)) (timezone : Option (List Char)) :
    Except Unit PyTime :=
  match eventTime with
  | none => .ok nowLocal
  | some t =>
    let off : Int :=
      match timezone with
      | some name => (lookupZone name).getD localOff
      | none => localOff
    match parseDateutil t with
    | none => .error ()
    | some dt =>
      match dt with
      | .naive y mo dy h mi se =>
        .ok (.aware (civilToSeconds y mo dy h mi se - off * 60) off)
      | .aware i _ => .ok (.aware i off)

/-- C9: `extract_event_timestamp` evaluated at the claim's inputs and at
the failing input.  A record with
`_time = "2024-01-01T10:00:00.000+00:00"` and timezone `"UTC"` yields
the aware timestamp 2024-01-01 10:00:00 UTC (primary parser path), and a
record with no `_time` yields the current local time; but a record whose
`_time` the primary parser cannot interpret (e.g. `"garbage"`) raises —
the unguarded `parse` call propagates `ParserError`, the dead
legacy-regex fallback notwithstanding — contradicting "never raises". -/
theorem c9_extract_event_timestamp (localOff : Int) (nowLocal : PyTime) :
    extract_event_timestamp localOff nowLocal
        (some "2024-01-01T10:00:00.000+00:00".data) (some "UTC".data)
      = .ok (.aware (civilToSeconds 2024 1 1 10 0 0) 0)
    ∧ extract_event_timestamp localOff nowLocal none (some "UTC".data) = .ok nowLocal
    ∧ extract_event_timestamp localOff nowLocal (some "garbage".data) (some "UTC".data)
      = .error () :=
  ⟨rfl, rfl, rfl⟩

/-! ### The query lifecycle (`query`, C2 / C3 / C6 / C10) -/

/-- An HTTP response to the job-status GET, as far as
`is_job_completed` inspects it. -/
structure PollResp where
  status : Nat
  body : List Char
deriving DecidableEq

/-- An HTTP response to the results GET: `parsed = some p` when its body
parses as the JSON payload `p`, `none` when `json.loads` raises. -/
structure DlResp where
  status : Nat
  parsed : Option Payload
deriving DecidableEq

/-- The slice of `SplunkQueryObject` state the claims observe (the
session key, search id and timing stats are write-only from the claims'
standpoint and are elided). -/
structure Session where
  search_results : Option Payload
deriving DecidableEq

/-- The environment of one `query()` call: the outcomes of the
authenticate and submit stages, the status response to the `k`-th poll
(`none` = transport exception), the download response, the value of the
externally-set `query_cancelled` flag at its `k`-th read, and the clock
(`now0` at entry — the timeout deadline is `now0 + queryTimeout`, with
`queryTimeout` the total seconds of
`create_timedelta(self.query_timeout)` — and `nowAt k` at iteration `k`'s
timeout comparison). -/
structure Env where
  authOk : Bool
  execOk : Bool
  poll : Nat → Option PollResp
  dl : Option DlResp
  cancelFlag : Nat → Bool
  now0 : Int
  nowAt : Nat → Int
  queryTimeout : Int

def isDoneKeyOpen : List Char := "<s:key name=\"isDone\">".data

def isDoneKeyClose : List Char := "</s:key>".data

/-- A match of `re.search(r'<s:key name="isDone">([01])</s:key>', ...)`
starting at position `i`, returning the captured digit. -/
def matchIsDoneAt (s : List Char) (i : Nat) : Option Char :=
  let t := s.drop i
  if isDoneKeyOpen.isPrefixOf t then
    match t.drop isDoneKeyOpen.length with
    | c :: rest =>
      if (c == '0' || c == '1') && isDoneKeyClose.isPrefixOf rest then some c else none
    | [] => none
  else none

/-- `re.search`: the leftmost match, if any. -/
def findIsDone (s : List Char) : Option Char :=
  (List.range (s.length + 1)).findSome? (fun i => matchIsDoneAt s i)

/-- `SplunkQueryObject.is_job_completed()`, as a function of the
(abstract) HTTP response: `none` models the Python `None` (non-200
status, or — via the surrounding `except` — a transport exception),
`some false` "not yet done" (including a body with no parseable `isDone`
key), `some true` "done". -/
def is_job_completed (r : Option PollResp) : Option Bool :=
  match r with
  | none => none
  | some resp =>
    if resp.status ≠ 200 then none
    else
      match findIsDone resp.body with
      | none => some false
      | some c => some (c == '1')

/-- `SplunkQueryObject.download_search_results()`, as a function of the
(abstract) HTTP response: `(truthiness of the return value, updated
session)`.  A transport exception is caught by the outer `except`, which
logs and falls through, so the function returns `None` — falsy like the
explicit `False` returns, both modelled as `false`.  Only a 200 response
whose body parses as JSON stores the payload. -/
def download_search_results (r : Option DlResp) (st : Session) : Bool × Session :=
  match r with
  | none => (false, st)
  | some resp =>
    if resp.status ≠ 200 then (false, st)
    else
      match resp.parsed with
      | none => (false, st)
      | some p => (true, ⟨some p⟩)

inductive PollExit where
  | errorExit
  | timeoutExit
  | doneExit
  | cancelExit
deriving DecidableEq

/-- The `while not self.query_cancelled` polling loop of
`SplunkQueryObject.query`, indexed by the iteration number `k`: read the
flag; call `is_job_completed` and return `False` on `None`; break on
done; return `False` once the clock passes the deadline; else sleep one
second and repeat.  `fuel` bounds the number of iterations the model
unrolls; `none` means the bound was hit before the loop exited (not a
behaviour of the code, which loops on). -/
def pollLoop (env : Env) (deadline : Int) : Nat → Nat → Option (PollExit × Nat)
  | 0, _ => none
  | fuel + 1, k =>
    if env.cancelFlag k then some (.cancelExit, k)
    else
      match is_job_completed (env.poll k) with
      | none => some (.errorExit, k)
      | some true => some (.doneExit, k)
      | some false =>
        if deadline < env.nowAt k then some (.timeoutExit, k)
        else pollLoop env deadline fuel (k + 1)

/-- The observable outcome of one `query()` call: the returned boolean,
the final session state, the number of `is_job_completed` calls made,
and whether `download_search_results` was invoked. -/
structure QueryOutcome where
  result : Bool
  session : Session
  statusChecks : Nat
  downloadAttempted : Bool
deriving DecidableEq

/-- `SplunkQueryObject.query(query)`: compute the timeout deadline
*before* authenticating; return `False` if `authenticate()` or
`execute_query()` fails; run the polling loop; on an error signal or
timeout return `False`; after the loop (completion or cancellation) read
the flag once more and, when it is clear, call
`download_search_results()` — whose return value the source IGNORES —
then return `True`. -/
def query (env : Env) (fuel : Nat) (st : Session) : Option QueryOutcome :=
  let deadline := env.now0 + env.queryTimeout
  if !env.authOk then some ⟨false, st, 0, false⟩
  else if !env.execOk then some ⟨false, st, 0, false⟩
  else
    match pollLoop env deadline fuel 0 with
    | none => none
    | some (.errorExit, k) => some ⟨false, st, k + 1, false⟩
    | some (.timeoutExit, k) => some ⟨false, st, k + 1, false⟩
    | some (.doneExit, k) =>
      if env.cancelFlag (k + 1) then some ⟨true, st, k + 1, false⟩
      else some ⟨true, (download_search_results env.dl st).2, k + 1, true⟩
    | some (.cancelExit, k) =>
      if env.cancelFlag (k + 1) then some ⟨true, st, k, false⟩
      else some ⟨true, (download_search_results env.dl st).2, k, true⟩

/-! ### C10 -/

/-- C10: if the cancellation flag is set before the first polling
iteration (and, as in the source, nothing clears it during the call),
`query` performs no status check and no download, leaves
`search_results` untouched, and returns `True` — the same boolean
outcome as a fully successful query. -/
theorem c10_cancel_before_poll (env : Env) (st : Session) (fuel : Nat)
    (ha : env.authOk = true) (he : env.execOk = true)
    (hc : ∀ k, env.cancelFlag k = true) (hf : 1 ≤ fuel) :
    query env fuel st = some ⟨true, st, 0, false⟩ := by
  obtain ⟨n, rfl⟩ : ∃ n, fuel = n + 1 := ⟨fuel - 1, by omega⟩
  simp [query, ha, he, pollLoop, hc 0, hc 1]

/-- C10 witness. -/
theorem c10_cancel_before_poll_witness :
    query ⟨true, true, fun _ => none, none, fun _ => true, 0, fun _ => 0, 1800⟩ 1 ⟨none⟩
      = some ⟨true, ⟨none⟩, 0, false⟩ :=
  c10_cancel_before_poll ⟨true, true, fun _ => none, none, fun _ => true, 0, fun _ => 0, 1800⟩
    ⟨none⟩ 1 rfl rfl (fun _ => rfl) (by decide)

/-! ### C6 -/

theorem pollLoop_timeout (env : Env) (deadline : Int)
    (hc : ∀ j, env.cancelFlag j = false)
    (hp : ∀ j, is_job_completed (env.poll j) = some false) :
    ∀ (fuel k K : Nat), k ≤ K → deadline < env.nowAt K → K - k < fuel →
      ∃ m, pollLoop env deadline fuel k = some (.timeoutExit, m) := by
  intro fuel
  induction fuel with
  | zero => intro k K hk hd hlt; omega
  | succ fuel ih =>
    intro k K hk hd hlt
    by_cases hnow : deadline < env.nowAt k
    · exact ⟨k, by simp [pollLoop, hc k, hp k, hnow]⟩
    · have hkK : k ≠ K := fun he => hnow (he ▸ hd)
      obtain ⟨m, hm⟩ := ih (k + 1) K (by omega) hd (by omega)
      exact ⟨m, by simp [pollLoop, hc k, hp k, hnow, hm]⟩

/-- C6: if the job status never reports done (`isDone` stays 0 on every
poll), the query is never cancelled, and the clock eventually exceeds
the timeout deadline (`now0 + queryTimeout`, from the configured query
timeout), then `query` returns the failure result `False`, leaves the
session untouched, and never attempts a download. -/
theorem c6_poll_timeout (env : Env) (st : Session) (fuel K : Nat)
    (ha : env.authOk = true) (he : env.execOk = true)
    (hc : ∀ k, env.cancelFlag k = false)
    (hp : ∀ k, is_job_completed (env.poll k) = some false)
    (ht : env.now0 + env.queryTimeout < env.nowAt K)
    (hf : K < fuel) :
    ∃ n, query env fuel st = some ⟨false, st, n + 1, false⟩ := by
  obtain ⟨m, hm⟩ := pollLoop_timeout env (env.now0 + env.queryTimeout) hc hp fuel 0 K
    (by omega) ht (by omega)
  exact ⟨m, by simp [query, ha, he, hm]⟩

/-- C6 witness: a 30-minute timeout, every poll answering `isDone=0`,
and a clock already past the deadline at the first timeout check. -/
theorem c6_poll_timeout_witness :
    ∃ n, query ⟨true, true, fun _ => some ⟨200, "<s:key name=\"isDone\">0</s:key>".data⟩,
          none, fun _ => false, 0, fun _ => 1801, 1800⟩ 1 ⟨none⟩
        = some ⟨false, ⟨none⟩, n + 1, false⟩ :=
  c6_poll_timeout
    ⟨true, true, fun _ => some ⟨200, "<s:key name=\"isDone\">0</s:key>".data⟩,
      none, fun _ => false, 0, fun _ => 1801, 1800⟩
    ⟨none⟩ 1 0 rfl rfl (fun _ => rfl) (fun _ => rfl) (by decide) (by decide)

/-! ### C3 -/

/-- C3 (amended): a non-200 status response (or a transport exception)
makes `is_job_completed` return the unrecoverable signal `None`, which
aborts polling immediately with a failed outcome, no further status
check and no download; but a 200 response whose body has no parseable
`isDone` key makes it return `False` — the very signal that means "not
yet done" — so polling *continues* to the next iteration (until done,
cancellation or the timeout) instead of aborting. -/
theorem c3_poll_error_signals :
    (∀ r : PollResp, r.status ≠ 200 → is_job_completed (some r) = none)
    ∧ is_job_completed none = none
    ∧ (∀ r : PollResp, r.status = 200 → findIsDone r.body = none →
        is_job_completed (some r) = some false)
    ∧ (∀ (env : Env) (st : Session) (fuel : Nat), env.authOk = true → env.execOk = true →
        (∀ k, env.cancelFlag k = false) → is_job_completed (env.poll 0) = none →
        1 ≤ fuel → query env fuel st = some ⟨false, st, 1, false⟩)
    ∧ (∀ (env : Env) (deadline : Int) (fuel k : Nat), env.cancelFlag k = false →
        is_job_completed (env.poll k) = some false → ¬(deadline < env.nowAt k) →
        pollLoop env deadline (fuel + 1) k = pollLoop env deadline fuel (k + 1)) := by
  refine ⟨?_, rfl, ?_, ?_, ?_⟩
  · intro r hr
    simp [is_job_completed, hr]
  · intro r hr hf
    simp [is_job_completed, hr, hf]
  · intro env st fuel ha he hc hp hf
    obtain ⟨n, rfl⟩ : ∃ n, fuel = n + 1 := ⟨fuel - 1, by omega⟩
    simp [query, ha, he, pollLoop, hc 0, hp]
  · intro env deadline fuel k hcx hpx hnow
    simp [pollLoop, hcx, hpx, hnow]

/-- C3 witness: concrete instances of each hypothesis of
`c3_poll_error_signals`. -/
theorem c3_poll_error_signals_witness :
    is_job_completed (some ⟨500, []⟩) = none
    ∧ is_job_completed (some ⟨200, "<response></response>".data⟩) = some false
    ∧ query ⟨true, true, fun _ => some ⟨500, []⟩, none, fun _ => false, 0, fun _ => 0, 1800⟩
        1 ⟨none⟩ = some ⟨false, ⟨none⟩, 1, false⟩
    ∧ pollLoop ⟨true, true, fun _ => some ⟨200, "<response></response>".data⟩, none,
          fun _ => false, 0, fun _ => 0, 1800⟩ 5 1 0
      = pollLoop ⟨true, true, fun _ => some ⟨200, "<response></response>".data⟩, none,
          fun _ => false, 0, fun _ => 0, 1800⟩ 5 0 1 :=
  ⟨c3_poll_error_signals.1 ⟨500, []⟩ (by decide),
   c3_poll_error_signals.2.2.1 ⟨200, "<response></response>".data⟩ rfl (by decide),
   c3_poll_error_signals.2.2.2.1
     ⟨true, true, fun _ => some ⟨500, []⟩, none, fun _ => false, 0, fun _ => 0, 1800⟩
     ⟨none⟩ 1 rfl rfl (fun _ => rfl) (by decide) (by decide),
   c3_poll_error_signals.2.2.2.2
     ⟨true, true, fun _ => some ⟨200, "<response></response>".data⟩, none,
       fun _ => false, 0, fun _ => 0, 1800⟩ 5 0 0 rfl (by decide) (by decide)⟩

/-- C3 counterexample: a 200 response whose body has no parseable
`isDone` key yields `some false` — exactly the "not yet done" signal —
not the unrecoverable error signal `none` the claim asserts, so polling
does not abort there. -/
theorem c3_unparseable_counterexample :
    is_job_completed (some ⟨200, "<response></response>".data⟩) = some false
    ∧ is_job_completed (some ⟨200, "<response></response>".data⟩) ≠ none :=
  ⟨by decide, by decide⟩

/-! ### C2 -/

/-- C2 (amended): when the download response has a non-200 status or a
body that fails to parse as JSON, `download_search_results` itself
reports the failure through a falsy return value (raising nothing, and
leaving `search_results` unset) — but `query` ignores that return value
and still returns `True`; the failure is visible to the caller only
through the absent `search_results`. -/
theorem c2_download_failure_ignored (env : Env) (st : Session) (fuel : Nat) (r : DlResp)
    (ha : env.authOk = true) (he : env.execOk = true)
    (hc : ∀ k, env.cancelFlag k = false)
    (hp : is_job_completed (env.poll 0) = some true)
    (hd : env.dl = some r) (hbad : r.status ≠ 200 ∨ r.parsed = none)
    (hf : 1 ≤ fuel) :
    download_search_results env.dl st = (false, st)
    ∧ query env fuel st = some ⟨true, st, 1, true⟩ := by
  have hdl : download_search_results env.dl st = (false, st) := by
    rw [hd]
    rcases hbad with hbad | hbad
    · simp [download_search_results, hbad]
    · by_cases hs : r.status = 200
      · simp [download_search_results, hs, hbad]
      · simp [download_search_results, hs]
  refine ⟨hdl, ?_⟩
  obtain ⟨n, rfl⟩ : ∃ n, fuel = n + 1 := ⟨fuel - 1, by omega⟩
  simp [query, ha, he, pollLoop, hc 0, hc 1, hp, hdl]

/-- C2 witness. -/
theorem c2_download_failure_ignored_witness :
    download_search_results (some ⟨500, none⟩) ⟨none⟩ = (false, ⟨none⟩)
    ∧ query ⟨true, true, fun _ => some ⟨200, "<s:key name=\"isDone\">1</s:key>".data⟩,
          some ⟨500, none⟩, fun _ => false, 0, fun _ => 0, 1800⟩ 1 ⟨none⟩
        = some ⟨true, ⟨none⟩, 1, true⟩ :=
  c2_download_failure_ignored
    ⟨true, true, fun _ => some ⟨200, "<s:key name=\"isDone\">1</s:key>".data⟩,
      some ⟨500, none⟩, fun _ => false, 0, fun _ => 0, 1800⟩
    ⟨none⟩ 1 ⟨500, none⟩ rfl rfl (fun _ => rfl) (by decide) rfl (by decide) (by decide)

/-- C2 counterexample: with authentication, submission and polling all
succeeding and the download endpoint answering 500,
`download_search_results` reports failure but `query` still returns
`True` (with `search_results` left unset) — not the claimed negative
outcome. -/
theorem c2_query_true_counterexample :
    (download_search_results (some ⟨500, none⟩) ⟨none⟩).1 = false
    ∧ query ⟨true, true, fun _ => some ⟨200, "<s:key name=\"isDone\">1</s:key>".data⟩,
          some ⟨500, none⟩, fun _ => false, 0, fun _ => 0, 1800⟩ 1 ⟨none⟩
        = some ⟨true, ⟨none⟩, 1, true⟩ :=
  ⟨rfl, by decide⟩

end AceHunter
